import Mathlib

/-!
Verification of the schema-description and query-construction engine of the
zxorm-sqlcipher mapping layer: constraint descriptors, column and table
descriptors with their CREATE TABLE rendering, and the DELETE query builder
(`delete_query.hpp`), against the repository's test expectations
(`table_test.cpp`).
-/

namespace Zxorm

/-- Conflict-resolution policy `conflict_t` (abort | rollback | fail | ignore
| replace, default abort). -/
inductive ConflictT
  | abort
  | rollback
  | fail
  | ignore
  | replace
deriving DecidableEq

/-- Foreign-key action `action_t` (noAction | restrict | setNull | setDefault
| cascade). -/
inductive ActionT
  | noAction
  | restrict
  | setNull
  | setDefault
  | cascade
deriving DecidableEq

/-- Modelled from the spec: SQL text of a conflict policy, as used in
`ON CONFLICT <POLICY>` clauses (source `orm/constraint.hpp` is not in the
excerpt; the exact uppercase texts are pinned by `table_test.cpp`). -/
def ConflictT.render : ConflictT → String
  | .abort => "ABORT"
  | .rollback => "ROLLBACK"
  | .fail => "FAIL"
  | .ignore => "IGNORE"
  | .replace => "REPLACE"

/-- Modelled from the spec: SQL text of a foreign-key action, as used in
`ON UPDATE <ACTION> ON DELETE <ACTION>` (source `orm/constraint.hpp` is not in
the excerpt; `CASCADE`/`RESTRICT` are pinned by `table_test.cpp`). -/
def ActionT.render : ActionT → String
  | .noAction => "NO ACTION"
  | .restrict => "RESTRICT"
  | .setNull => "SET NULL"
  | .setDefault => "SET DEFAULT"
  | .cascade => "CASCADE"

/-- A foreign-key reference target: `Reference<"table", "column">`. -/
structure Reference where
  table : String
  column : String
deriving DecidableEq

/-- Constraint Descriptor: tag (PrimaryKey | NotNull | Unique | ForeignKey)
plus its conflict-resolution policy, and for ForeignKey the reference and the
on-update / on-delete actions. -/
inductive ConstraintDescriptor
  | primaryKey (policy : ConflictT)
  | notNull (policy : ConflictT)
  | unique (policy : ConflictT)
  | foreignKey (ref : Reference) (onUpdate : ActionT) (onDelete : ActionT)
deriving DecidableEq

/-- Modelled from the spec: `render()` returns the exact clause text for its
kind — ForeignKey renders `REFERENCES <table> (<column>) ON UPDATE <ACTION>
ON DELETE <ACTION>`; PrimaryKey/NotNull/Unique render `<KIND> ON CONFLICT
<POLICY>` (source `orm/constraint.hpp` is not in the excerpt; exact texts
pinned by `table_test.cpp` lines 117-123). -/
def ConstraintDescriptor.render : ConstraintDescriptor → String
  | .primaryKey p => "PRIMARY KEY ON CONFLICT " ++ p.render
  | .notNull p => "NOT NULL ON CONFLICT " ++ p.render
  | .unique p => "UNIQUE ON CONFLICT " ++ p.render
  | .foreignKey r u d =>
      "REFERENCES `" ++ r.table ++ "` (`" ++ r.column ++ "`) ON UPDATE "
        ++ u.render ++ " ON DELETE " ++ d.render

/-- The C++ type of the bound record field or accessor that a column maps,
as far as storage-type inference is concerned: `int`, `float`, `std::string`,
or a blob-like byte container. -/
inductive MemberType
  | int
  | float
  | text
  | blob
deriving DecidableEq

/-- SQL storage type of a column (INTEGER | REAL | TEXT | BLOB). -/
inductive SqlType
  | INTEGER
  | REAL
  | TEXT
  | BLOB
deriving DecidableEq

/-- Modelled from the spec: the storage type is inferred solely from the bound
record field/accessor type (int → INTEGER, float → REAL, std::string → TEXT,
byte container → BLOB). -/
def sqlTypeOf : MemberType → SqlType
  | .int => .INTEGER
  | .float => .REAL
  | .text => .TEXT
  | .blob => .BLOB

/-- SQL text of a storage type. -/
def SqlType.render : SqlType → String
  | .INTEGER => "INTEGER"
  | .REAL => "REAL"
  | .TEXT => "TEXT"
  | .BLOB => "BLOB"

/-- The type of the bound member: its base type plus whether it is wrapped in
`std::optional` (the explicit nullability marker). -/
structure FieldType where
  base : MemberType
  isOpt : Bool
deriving DecidableEq

/-- The projection binding a column to the record type: either a public data
member (`Column<name, &T::field>`) or a getter/setter accessor pair
(`ColumnPrivate<name, &T::getter, &T::setter>`). Rendering must not depend on
this. -/
inductive Binding
  | publicField (field : String)
  | accessorPair (getter : String) (setter : String)
deriving DecidableEq

/-- Column Descriptor: name, bound member type, projection, and the ordered
list of declared Constraint Descriptors. -/
structure ColumnDescriptor where
  name : String
  fieldType : FieldType
  binding : Binding
  constraints : List ConstraintDescriptor
deriving DecidableEq

/-- Modelled from the spec: a column is nullable exactly when it is explicitly
marked optional (`std::optional` member type). -/
def ColumnDescriptor.isNullable (c : ColumnDescriptor) : Bool :=
  c.fieldType.isOpt

/-- Whether an explicit NotNull constraint appears among the declared
constraints. -/
def hasNotNull (ks : List ConstraintDescriptor) : Bool :=
  ks.any fun k =>
    match k with
    | .notNull _ => true
    | _ => false

/-- Modelled from the spec: the constraint clauses actually rendered for a
column. A non-nullable column gets a `NOT NULL ON CONFLICT ABORT` clause; when
the declaration already carries an explicit NotNull constraint that constraint
stands in its place (the repository's test, `table_test.cpp` line 119, shows a
column declared `NotNull<>, Unique<>` rendering exactly one NOT NULL clause),
otherwise a default abort-policy NotNull clause is prepended before the
declared constraints. -/
def effectiveConstraints (c : ColumnDescriptor) : List ConstraintDescriptor :=
  if c.isNullable then c.constraints
  else if hasNotNull c.constraints then c.constraints
  else .notNull .abort :: c.constraints

/-- Space-prefixed concatenation of rendered constraint clauses, in order. -/
def renderConstraintsSuffix : List ConstraintDescriptor → String
  | [] => ""
  | k :: ks => " " ++ k.render ++ renderConstraintsSuffix ks

/-- Modelled from the spec: `renderDefinition()` produces
`` `name` TYPE [NOT NULL ON CONFLICT ABORT] [constraint clauses...] `` with
clauses space-separated in declaration order (exact text pinned by
`table_test.cpp` lines 106 and 117-123). -/
def renderDefinition (c : ColumnDescriptor) : String :=
  "`" ++ c.name ++ "` " ++ (sqlTypeOf c.fieldType.base).render
    ++ renderConstraintsSuffix (effectiveConstraints c)

/-- Table Descriptor: a name and an ordered sequence of Column Descriptors
bound to a record type. -/
structure TableDescriptor where
  name : String
  columns : List ColumnDescriptor
deriving DecidableEq

/-- Modelled from the spec: `nColumns` is the count of declared columns. -/
def TableDescriptor.nColumns (T : TableDescriptor) : Nat :=
  T.columns.length

/-- Walks the column pack with a decreasing index, the way the C++ template
recursion resolves `columnName(i)`. -/
def columnNameAux : List ColumnDescriptor → Nat → Option String
  | [], _ => none
  | c :: _, 0 => some c.name
  | _ :: cs, n + 1 => columnNameAux cs n

/-- Modelled from the spec: `columnName(i)` is the i-th declared column's name;
an out-of-range index signals NotFound, modelled as `none`. -/
def TableDescriptor.columnName (T : TableDescriptor) (i : Nat) : Option String :=
  columnNameAux T.columns i

/-- Column definitions joined by a comma and newline, matching the multi-line
statement the raw query carries before whitespace normalization. -/
def joinDefs : List ColumnDescriptor → String
  | [] => ""
  | [c] => renderDefinition c
  | c :: cs => renderDefinition c ++ ",\n" ++ joinDefs cs

/-- Modelled from the spec: `createTableQuery(ifNotExists)` renders
`CREATE TABLE [IF NOT EXISTS] <name> ( <col defs> );` across several lines;
whitespace is not semantically significant and the statement ends in a
newline (the test `table_test.cpp` lines 104-106 normalizes whitespace runs
to single spaces and compares against a string with one trailing space). -/
def createTableQuery (ifNotExists : Bool) (T : TableDescriptor) : String :=
  "CREATE TABLE " ++ (if ifNotExists then "IF NOT EXISTS " else "")
    ++ T.name ++ " (\n" ++ joinDefs T.columns ++ "\n);\n"

/-- The `table_t` of `table_test.cpp`: `Table<"test", Object,
Column<"id", &Object::_id>, Column<"name", &Object::_name>>`. -/
def tableT : TableDescriptor :=
  ⟨"test",
    [⟨"id", ⟨.int, false⟩, .publicField "_id", []⟩,
     ⟨"name", ⟨.text, false⟩, .publicField "_name", []⟩]⟩

/-- The `tablepriv_t` of `table_test.cpp`: same columns as `table_t` but bound
through getter/setter accessor pairs, table name `test_private`. -/
def tablePrivT : TableDescriptor :=
  ⟨"test_private",
    [⟨"id", ⟨.int, false⟩, .accessorPair "getId" "setId", []⟩,
     ⟨"name", ⟨.text, false⟩, .accessorPair "getName" "setName", []⟩]⟩

/-- The `table_with_column_constraints_t` of `table_test.cpp`. -/
def tableConstraintsT : TableDescriptor :=
  ⟨"test_constraints",
    [⟨"id", ⟨.int, false⟩, .publicField "_id", [.primaryKey .abort]⟩,
     ⟨"name", ⟨.text, false⟩, .publicField "_name",
        [.notNull .abort, .unique .abort]⟩,
     ⟨"text", ⟨.text, false⟩, .publicField "_someText", [.unique .replace]⟩,
     ⟨"float", ⟨.float, false⟩, .publicField "_someFloat", []⟩,
     ⟨"someId", ⟨.int, false⟩, .publicField "_someId",
        [.foreignKey ⟨"test", "id"⟩ .cascade .restrict]⟩]⟩

/-- Whitespace in the sense of the test's regex `\s+` (space, tab, newline,
carriage return, vertical tab, form feed). -/
def isWS (c : Char) : Bool :=
  c == ' ' || c == '\t' || c == '\n' || c == '\r'
    || c == Char.ofNat 11 || c == Char.ofNat 12

/-- Collapses each maximal run of whitespace characters to a single space,
the effect of `std::regex_replace(query, std::regex("\\s+"), " ")` in the
test; the Boolean records whether the previous character was whitespace. -/
def collapseAux : Bool → List Char → List Char
  | _, [] => []
  | b, c :: rest =>
    if isWS c then
      if b then collapseAux true rest
      else ' ' :: collapseAux true rest
    else c :: collapseAux false rest

/-- Whitespace normalization applied by the tests before comparing SQL. -/
def normalizeWS (s : String) : String :=
  String.mk (collapseAux false s.data)

/-- The whitespace state after consuming a character list: whether its last
character is whitespace (or the starting state for an empty list). -/
def stateAfter (b : Bool) (l : List Char) : Bool :=
  l.foldl (fun _ c => isWS c) b

/-- The rendering claim C2 states, following the spec sentence literally:
name in backticks, storage type, `NOT NULL ON CONFLICT ABORT` whenever the
column is not explicitly nullable, then all declared constraint clauses in
declaration order, space-separated. -/
def renderDefinitionClaimed (c : ColumnDescriptor) : String :=
  "`" ++ c.name ++ "` " ++ (sqlTypeOf c.fieldType.base).render
    ++ (if c.isNullable then "" else " NOT NULL ON CONFLICT ABORT")
    ++ renderConstraintsSuffix c.constraints

/-- Predicate Expression Tree node, as far as the DELETE builder observes it:
a raw rendered condition or an AND conjunction. -/
inductive Predicate
  | raw (text : String)
  | conj (l r : Predicate)
deriving DecidableEq

/-- Rendered predicate text; Logical AND renders `(<left> AND <right>)`. -/
def Predicate.render : Predicate → String
  | .raw t => t
  | .conj l r => "(" ++ l.render ++ " AND " ++ r.render ++ ")"

/-- Modelled from the spec: the shared Query base's `where` — attaches a
WHERE predicate, combining with the already-attached one by AND when called
again (`orm/query/query.hpp` is not in the excerpt). -/
def addWhere : Option Predicate → Predicate → Option Predicate
  | none, p => some p
  | some old, p => some (old.conj p)

/-- `__delete_detail::DeleteColumnClause::operator<<` writes exactly the
literal text `DELETE ` (`delete_query.hpp` lines 9-14). -/
def deleteColumnClauseText : String := "DELETE "

/-- The DELETE Query Builder state: the From table's name and the accumulated
WHERE predicate, present exactly when `.where(...)` has been called. -/
structure DeleteQueryB where
  tableName : String
  whereClause : Option Predicate
deriving DecidableEq

/-- A freshly constructed DeleteQuery: no WHERE predicate attached yet. -/
def mkDelete (t : String) : DeleteQueryB := ⟨t, none⟩

/-- `DeleteQuery::where` forwards its arguments to the base `where` and
returns the builder itself (`delete_query.hpp` lines 33-36). -/
def DeleteQueryB.whereCall (q : DeleteQueryB) (p : Predicate) : DeleteQueryB :=
  ⟨q.tableName, addWhere q.whereClause p⟩

/-- Modelled from the spec: the rendered DELETE statement,
`DELETE FROM <table> [WHERE <predicate>];` — the column clause contributes the
literal `DELETE ` (from the source), then the builder supplies the FROM table
and the optional WHERE predicate (`orm/query/query.hpp` is not in the
excerpt). -/
def DeleteQueryB.render (q : DeleteQueryB) : String :=
  deleteColumnClauseText ++ "FROM " ++ q.tableName
    ++ (match q.whereClause with
        | none => ""
        | some p => " WHERE " ++ p.render)
    ++ ";"

/-- Error results surfaced by prepare/step: PrepareError / StepError carrying
the engine's diagnostic text. -/
inductive SqlErr
  | prepareErr (msg : String)
  | stepErr (msg : String)
deriving DecidableEq

/-- Observable events of one `exec()` invocation. -/
inductive ExecEvent
  | prepareCalled
  | prepareSucceeded
  | prepareFailed (e : SqlErr)
  | stepCalled
deriving DecidableEq

/-- The engine's responses available to one `exec()` invocation: the outcome
of `prepare()` and the outcome of stepping the statement to completion
(`none` = success). -/
structure EngineResponse where
  prepRes : Option SqlErr
  stepRes : Option SqlErr
deriving DecidableEq

/-- `DeleteQuery::exec()` per `delete_query.hpp` lines 38-41:
`ZXORM_TRY(Super::prepare());` then `return Super::_stmt->step();` —
`ZXORM_TRY` returns the error immediately when `prepare()` fails, so the
statement is stepped only after the prepare in this same invocation
succeeded. Yields the result returned to the caller, the updated prepared
flag, and the invocation's event trace. -/
def execOnce (prepared : Bool) (r : EngineResponse) :
    Option SqlErr × Bool × List ExecEvent :=
  match r.prepRes with
  | some e => (some e, prepared, [.prepareCalled, .prepareFailed e])
  | none => (r.stepRes, true, [.prepareCalled, .prepareSucceeded, .stepCalled])

/-- Event traces of repeated `exec()` invocations, threading the prepared
flag between them. -/
def execTraces : Bool → List EngineResponse → List (List ExecEvent)
  | _, [] => []
  | st, r :: rs =>
      (execOnce st r).2.2 :: execTraces (execOnce st r).2.1 rs

/-- Checker: every step event is preceded, within the same trace, by a
successful prepare; the Boolean records whether a prepare has succeeded so
far in this trace. -/
def stepsGuarded : Bool → List ExecEvent → Bool
  | _, [] => true
  | ok, e :: rest =>
    match e with
    | .prepareSucceeded => stepsGuarded true rest
    | .stepCalled => ok && stepsGuarded ok rest
    | _ => stepsGuarded ok rest

/-- A token of rendered CREATE TABLE text: literal SQL, a table-name slot, or
a column-name slot. -/
inductive SqlTok
  | lit (s : String)
  | tbl (s : String)
  | col (s : String)
deriving DecidableEq

/-- The text a token contributes. -/
def tokText : SqlTok → String
  | .lit s => s
  | .tbl s => s
  | .col s => s

/-- Concatenated text of a token stream. -/
def renderToks : List SqlTok → String
  | [] => ""
  | t :: ts => tokText t ++ renderToks ts

/-- Applies a name substitution to the table-name and column-name slots,
leaving literal SQL untouched. -/
def substTok (f : String → String) : SqlTok → SqlTok
  | .lit s => .lit s
  | .tbl s => .tbl (f s)
  | .col s => .col (f s)

/-- The column-definition text as tokens: the column name fills a name slot,
everything else is literal. -/
def defToks (c : ColumnDescriptor) : List SqlTok :=
  [.lit "`", .col c.name,
   .lit ("` " ++ (sqlTypeOf c.fieldType.base).render
      ++ renderConstraintsSuffix (effectiveConstraints c))]

/-- Token form of `joinDefs`. -/
def joinDefsToks : List ColumnDescriptor → List SqlTok
  | [] => []
  | [c] => defToks c
  | c :: cs => defToks c ++ (SqlTok.lit ",\n" :: joinDefsToks cs)

/-- `createTableQuery false` as a token stream separating the name slots from
the literal SQL text. -/
def createTableToks (T : TableDescriptor) : List SqlTok :=
  (SqlTok.lit "CREATE TABLE " :: SqlTok.tbl T.name :: SqlTok.lit " (\n" ::
    joinDefsToks T.columns) ++ [SqlTok.lit "\n);\n"]

/-- Renames a column by a uniform name substitution and reassigns its
projection binding, leaving type and constraints unchanged. -/
def renameCol (f : String → String) (b : ColumnDescriptor → Binding)
    (c : ColumnDescriptor) : ColumnDescriptor :=
  ⟨f c.name, c.fieldType, b c, c.constraints⟩

/-- A table differing from `T` only by table name (through the substitution)
and a uniform column-name substitution, with otherwise identical column
declarations but arbitrary (e.g. private-accessor) bindings. -/
def renameTable (f : String → String) (b : ColumnDescriptor → Binding)
    (T : TableDescriptor) : TableDescriptor :=
  ⟨f T.name, T.columns.map (renameCol f b)⟩

/-- The substitution the regression test applies: the table name
`test_private` maps to `test`, every other name is unchanged. -/
def privToPublicName (s : String) : String :=
  if s = "test_private" then "test" else s

/-- A string free of whitespace characters. -/
def wsFreeStr (s : String) : Bool :=
  s.data.all fun c => !isWS c

/-- Whether the names a constraint itself renders (the foreign-key reference
target) are whitespace-free. -/
def constraintWsFree : ConstraintDescriptor → Bool
  | .foreignKey r _ _ => wsFreeStr r.table && wsFreeStr r.column
  | _ => true

/-- A character list invariant under whitespace collapsing, from either
starting state, and leaving the collapser in the non-whitespace state: the
shape of a well-spaced single-line SQL fragment. -/
def Canon (l : List Char) : Prop :=
  collapseAux false l = l ∧ collapseAux true l = l
    ∧ stateAfter false l = false ∧ stateAfter true l = false

/-- `Canon` at the string level. -/
def CanonS (s : String) : Prop :=
  Canon s.data

/-- The whitespace-normalized column-definition join: definitions joined by
a comma and a single space, in declaration order. -/
def joinDefsN : List ColumnDescriptor → String
  | [] => ""
  | [c] => renderDefinition c
  | c :: cs => renderDefinition c ++ ", " ++ joinDefsN cs

/-- Separator-prefixed join of the tail elements, the spine of
`String.intercalate`. -/
def sepJoin (s : String) : List String → String
  | [] => ""
  | a :: as => s ++ a ++ sepJoin s as

/-! ## Shared helper lemmas -/

lemma renderConstraintsSuffix_append (l₁ l₂ : List ConstraintDescriptor) :
    renderConstraintsSuffix (l₁ ++ l₂)
      = renderConstraintsSuffix l₁ ++ renderConstraintsSuffix l₂ := by
  induction l₁ with
  | nil => simp [renderConstraintsSuffix]
  | cons k ks ih => simp [renderConstraintsSuffix, ih, String.append_assoc]

lemma columnNameAux_eq_getElem (cs : List ColumnDescriptor) (i : Nat) :
    columnNameAux cs i = cs[i]?.map ColumnDescriptor.name := by
  induction cs generalizing i with
  | nil => simp [columnNameAux]
  | cons c cs ih =>
      cases i with
      | zero => simp [columnNameAux]
      | succ n => simpa [columnNameAux] using ih n

lemma renderToks_append (l₁ l₂ : List SqlTok) :
    renderToks (l₁ ++ l₂) = renderToks l₁ ++ renderToks l₂ := by
  induction l₁ with
  | nil => simp [renderToks]
  | cons tk ts ih => simp [renderToks, ih, String.append_assoc]

lemma renderDefinition_renameCol (f : String → String)
    (b : ColumnDescriptor → Binding) (c : ColumnDescriptor) :
    renderDefinition (renameCol f b c)
      = renderToks ((defToks c).map (substTok f)) := by
  obtain ⟨n, ft, bb, ks⟩ := c
  refine String.ext ?_
  simp [renderDefinition, renameCol, defToks, substTok, tokText, renderToks,
    effectiveConstraints, ColumnDescriptor.isNullable, String.data_append]

lemma joinDefs_rename (f : String → String) (b : ColumnDescriptor → Binding)
    (cs : List ColumnDescriptor) :
    joinDefs (cs.map (renameCol f b))
      = renderToks ((joinDefsToks cs).map (substTok f)) := by
  induction cs with
  | nil => simp [joinDefs, joinDefsToks, renderToks]
  | cons c cs ih =>
      cases cs with
      | nil => simp [joinDefs, joinDefsToks, renderDefinition_renameCol]
      | cons c₂ cs₂ =>
          simp only [List.map_cons] at ih
          refine String.ext ?_
          simp [joinDefs, joinDefsToks, List.map_append, renderToks_append,
            renderDefinition_renameCol, renderToks, tokText, substTok, ih,
            String.data_append]

lemma renameCol_id (c : ColumnDescriptor) :
    renameCol id (fun c' => c'.binding) c = c := rfl

lemma substTok_id (tk : SqlTok) : substTok id tk = tk := by
  cases tk <;> rfl

lemma joinDefs_toks (cs : List ColumnDescriptor) :
    joinDefs cs = renderToks (joinDefsToks cs) := by
  have h := joinDefs_rename id (fun c' => c'.binding) cs
  rw [show (renameCol id fun c' => c'.binding) = id from funext renameCol_id,
    show substTok id = id from funext substTok_id, List.map_id, List.map_id]
    at h
  exact h

lemma stateAfter_cons (b : Bool) (c : Char) (l : List Char) :
    stateAfter b (c :: l) = stateAfter (isWS c) l := rfl

lemma stateAfter_append (b : Bool) (l₁ l₂ : List Char) :
    stateAfter b (l₁ ++ l₂) = stateAfter (stateAfter b l₁) l₂ := by
  simp [stateAfter, List.foldl_append]

lemma collapseAux_append (b : Bool) (l₁ l₂ : List Char) :
    collapseAux b (l₁ ++ l₂)
      = collapseAux b l₁ ++ collapseAux (stateAfter b l₁) l₂ := by
  induction l₁ generalizing b with
  | nil => simp [collapseAux, stateAfter]
  | cons c l ih =>
      by_cases h : isWS c = true
      · cases b <;> simp [collapseAux, h, ih, stateAfter_cons]
      · rw [Bool.not_eq_true] at h
        simp [collapseAux, h, ih, stateAfter_cons]

lemma collapseAux_of_nonWS (l : List Char)
    (h : l.all (fun c => !isWS c) = true) (b : Bool) : collapseAux b l = l := by
  induction l generalizing b with
  | nil => rfl
  | cons c rest ih =>
      simp only [List.all_cons, Bool.and_eq_true, Bool.not_eq_true'] at h
      simp [collapseAux, h.1, ih h.2]

lemma stateAfter_of_nonWS : ∀ (l : List Char),
    l.all (fun c => !isWS c) = true → ∀ b : Bool, l ≠ [] →
      stateAfter b l = false := by
  intro l
  induction l with
  | nil => intro _ b hne; exact absurd rfl hne
  | cons c rest ih =>
      intro h b _
      simp only [List.all_cons, Bool.and_eq_true, Bool.not_eq_true'] at h
      rw [stateAfter_cons]
      cases rest with
      | nil => simp [stateAfter, h.1]
      | cons d ds =>
          exact ih (by simp [List.all_cons, h.2]) _ (by simp)

lemma canon_append {a b : List Char} (ha : Canon a) (hb : Canon b) :
    Canon (a ++ b) := by
  obtain ⟨ha1, ha2, ha3, ha4⟩ := ha
  obtain ⟨hb1, hb2, hb3, hb4⟩ := hb
  refine ⟨?_, ?_, ?_, ?_⟩ <;>
    simp [collapseAux_append, stateAfter_append, ha1, ha2, ha3, ha4,
      hb1, hb2, hb3, hb4]

lemma canon_glue {a b : List Char} (ha : Canon a) (hb : Canon b) :
    Canon (a ++ ' ' :: b) := by
  obtain ⟨ha1, ha2, ha3, ha4⟩ := ha
  obtain ⟨hb1, hb2, hb3, hb4⟩ := hb
  have hws : isWS ' ' = true := rfl
  refine ⟨?_, ?_, ?_, ?_⟩ <;>
    simp [collapseAux_append, stateAfter_append, stateAfter_cons, collapseAux,
      hws, ha1, ha2, ha3, ha4, hb1, hb2, hb3, hb4]

lemma canon_nonWS {l : List Char} (h : l.all (fun c => !isWS c) = true)
    (hne : l ≠ []) : Canon l :=
  ⟨collapseAux_of_nonWS l h false, collapseAux_of_nonWS l h true,
   stateAfter_of_nonWS l h false hne, stateAfter_of_nonWS l h true hne⟩

lemma canon_mid {a m b : List Char} (ha : Canon a)
    (hm : m.all (fun c => !isWS c) = true) (hb : Canon b) :
    Canon (a ++ (m ++ b)) := by
  rcases m with _ | ⟨x, xs⟩
  · exact canon_append ha hb
  · exact canon_append ha (canon_append (canon_nonWS hm (by simp)) hb)

lemma canonS_of (s : String) (h1 : collapseAux false s.data = s.data)
    (h2 : collapseAux true s.data = s.data)
    (h3 : stateAfter false s.data = false)
    (h4 : stateAfter true s.data = false) : CanonS s :=
  ⟨h1, h2, h3, h4⟩

lemma canonS_append {a b : String} (ha : CanonS a) (hb : CanonS b) :
    CanonS (a ++ b) := by
  unfold CanonS at *
  rw [String.data_append]
  exact canon_append ha hb

lemma canonS_glue {a b : String} (ha : CanonS a) (hb : CanonS b) :
    CanonS (a ++ (" " ++ b)) := by
  unfold CanonS at *
  rw [String.data_append, String.data_append]
  exact canon_glue ha hb

lemma canonS_var {a m b : String} (ha : CanonS a) (hm : wsFreeStr m = true)
    (hb : CanonS b) : CanonS (a ++ (m ++ b)) := by
  unfold CanonS at *
  rw [String.data_append, String.data_append]
  exact canon_mid ha hm hb

lemma canon_conflict (p : ConflictT) : CanonS p.render := by
  cases p <;> exact ⟨rfl, rfl, rfl, rfl⟩

lemma canon_action (u : ActionT) : CanonS u.render := by
  cases u <;> exact ⟨rfl, rfl, rfl, rfl⟩

lemma canon_sqltype (t : SqlType) : CanonS t.render := by
  cases t <;> exact ⟨rfl, rfl, rfl, rfl⟩

lemma canon_constraint {k : ConstraintDescriptor}
    (h : constraintWsFree k = true) : CanonS k.render := by
  cases k with
  | primaryKey p =>
      have e : (ConstraintDescriptor.primaryKey p).render
          = "PRIMARY KEY ON CONFLICT" ++ (" " ++ p.render) := by
        rw [ConstraintDescriptor.render,
          show ("PRIMARY KEY ON CONFLICT " : String)
            = "PRIMARY KEY ON CONFLICT" ++ " " from rfl,
          String.append_assoc]
      rw [e]
      exact canonS_glue (canonS_of _ rfl rfl rfl rfl) (canon_conflict p)
  | notNull p =>
      have e : (ConstraintDescriptor.notNull p).render
          = "NOT NULL ON CONFLICT" ++ (" " ++ p.render) := by
        rw [ConstraintDescriptor.render,
          show ("NOT NULL ON CONFLICT " : String)
            = "NOT NULL ON CONFLICT" ++ " " from rfl,
          String.append_assoc]
      rw [e]
      exact canonS_glue (canonS_of _ rfl rfl rfl rfl) (canon_conflict p)
  | unique p =>
      have e : (ConstraintDescriptor.unique p).render
          = "UNIQUE ON CONFLICT" ++ (" " ++ p.render) := by
        rw [ConstraintDescriptor.render,
          show ("UNIQUE ON CONFLICT " : String)
            = "UNIQUE ON CONFLICT" ++ " " from rfl,
          String.append_assoc]
      rw [e]
      exact canonS_glue (canonS_of _ rfl rfl rfl rfl) (canon_conflict p)
  | foreignKey r u d =>
      simp only [constraintWsFree, Bool.and_eq_true] at h
      have e : (ConstraintDescriptor.foreignKey r u d).render
          = "REFERENCES `" ++ (r.table ++ ("` (`" ++ (r.column
            ++ ("`) ON UPDATE" ++ (" " ++ (u.render
            ++ (" " ++ ("ON DELETE" ++ (" " ++ d.render))))))))) := by
        rw [ConstraintDescriptor.render]
        simp only [show ("`) ON UPDATE " : String)
            = "`) ON UPDATE" ++ " " from rfl,
          show (" ON DELETE " : String)
            = " " ++ ("ON DELETE" ++ " ") from rfl,
          String.append_assoc]
      rw [e]
      exact canonS_var (canonS_of _ rfl rfl rfl rfl) h.1
        (canonS_var (canonS_of _ rfl rfl rfl rfl) h.2
          (canonS_glue (canonS_of _ rfl rfl rfl rfl)
            (canonS_glue (canon_action u)
              (canonS_glue (canonS_of _ rfl rfl rfl rfl) (canon_action d)))))

lemma canonS_append_rcs : ∀ (ks : List ConstraintDescriptor),
    (∀ k ∈ ks, constraintWsFree k = true) →
    ∀ (a : String), CanonS a → CanonS (a ++ renderConstraintsSuffix ks) := by
  intro ks
  induction ks with
  | nil => intro _ a ha; simpa [renderConstraintsSuffix] using ha
  | cons k ks ih =>
      intro hks a ha
      have e : a ++ renderConstraintsSuffix (k :: ks)
          = (a ++ (" " ++ k.render)) ++ renderConstraintsSuffix ks := by
        rw [renderConstraintsSuffix, ← String.append_assoc]
      rw [e]
      exact ih (fun k' hk' => hks k' (List.mem_cons_of_mem _ hk'))
        (a ++ (" " ++ k.render))
        (canonS_glue ha (canon_constraint (hks k (List.mem_cons_self k ks))))

lemma constraintWsFree_effective (c : ColumnDescriptor)
    (hks : ∀ k ∈ c.constraints, constraintWsFree k = true) :
    ∀ k ∈ effectiveConstraints c, constraintWsFree k = true := by
  intro k hk
  unfold effectiveConstraints at hk
  split at hk
  · exact hks k hk
  · split at hk
    · exact hks k hk
    · rcases List.mem_cons.mp hk with h | h
      · rw [h]; rfl
      · exact hks k h

lemma canonS_renderDefinition (c : ColumnDescriptor)
    (hn : wsFreeStr c.name = true)
    (hks : ∀ k ∈ c.constraints, constraintWsFree k = true) :
    CanonS (renderDefinition c) := by
  have ep : (("`" ++ c.name) ++ "` ") ++ (sqlTypeOf c.fieldType.base).render
      = ("`" ++ (c.name ++ "`")) ++ (" " ++ (sqlTypeOf c.fieldType.base).render)
      := by
    refine String.ext ?_
    simp only [String.data_append]
    simp [List.append_assoc]
  rw [renderDefinition, ep]
  exact canonS_append_rcs (effectiveConstraints c)
    (constraintWsFree_effective c hks) _
    (canonS_glue (canonS_var (canonS_of _ rfl rfl rfl rfl) hn
        (canonS_of _ rfl rfl rfl rfl))
      (canon_sqltype _))

lemma collapse_joinDefs : ∀ (cs : List ColumnDescriptor), cs ≠ [] →
    (∀ c ∈ cs, CanonS (renderDefinition c)) →
    collapseAux true ((joinDefs cs).data ++ ("\n);\n" : String).data)
      = (joinDefsN cs).data ++ (" ); " : String).data := by
  intro cs
  induction cs with
  | nil => intro hne _; exact absurd rfl hne
  | cons c cs ih =>
      intro _ hc
      obtain ⟨h1, h2, h3, h4⟩ := hc c (List.mem_cons_self c cs)
      cases cs with
      | nil =>
          simp only [joinDefs, joinDefsN]
          rw [collapseAux_append, h2, h4]
          rfl
      | cons c₂ cs₂ =>
          simp only [joinDefs, joinDefsN]
          rw [String.data_append, String.data_append, List.append_assoc,
            List.append_assoc, collapseAux_append, h2, h4]
          have step : collapseAux false ((",\n" : String).data
              ++ ((joinDefs (c₂ :: cs₂)).data ++ ("\n);\n" : String).data))
              = ',' :: ' ' :: collapseAux true ((joinDefs (c₂ :: cs₂)).data
                ++ ("\n);\n" : String).data) := rfl
          rw [step, ih (by simp)
            (fun c' h' => hc c' (List.mem_cons_of_mem _ h'))]
          simp [String.data_append, List.append_assoc]

lemma intercalate_go_eq : ∀ (as : List String) (acc s : String),
    String.intercalate.go acc s as = acc ++ sepJoin s as := by
  intro as
  induction as with
  | nil => intro acc s; simp [String.intercalate.go, sepJoin]
  | cons a as ih =>
      intro acc s
      rw [String.intercalate.go, ih]
      simp [sepJoin, String.append_assoc]

lemma intercalate_cons (s a : String) (as : List String) :
    String.intercalate s (a :: as) = a ++ sepJoin s as := by
  rw [String.intercalate]
  exact intercalate_go_eq as a s

lemma joinDefsN_eq_intercalate : ∀ (cs : List ColumnDescriptor),
    joinDefsN cs = String.intercalate ", " (cs.map renderDefinition) := by
  intro cs
  induction cs with
  | nil => rfl
  | cons c cs ih =>
      cases cs with
      | nil => simp [joinDefsN, List.map_cons, intercalate_cons, sepJoin]
      | cons c₂ cs₂ =>
          simp only [List.map_cons] at ih ⊢
          rw [intercalate_cons] at ih
          rw [intercalate_cons]
          simp only [joinDefsN, sepJoin, ih]
          simp [String.append_assoc]

lemma collapse_query (nm : List Char)
    (hnm : nm.all (fun c => !isWS c) = true) (hne : nm ≠ [])
    (J C : List Char)
    (hJ : collapseAux true (J ++ ("\n);\n" : String).data) = C) :
    collapseAux false (("CREATE TABLE " : String).data
        ++ (nm ++ ((" (\n" : String).data ++ (J ++ ("\n);\n" : String).data))))
      = ("CREATE TABLE " : String).data
          ++ (nm ++ ((" ( " : String).data ++ C)) := by
  rw [collapseAux_append,
    show collapseAux false ("CREATE TABLE " : String).data
      = ("CREATE TABLE " : String).data from rfl,
    show stateAfter false ("CREATE TABLE " : String).data = true from rfl,
    collapseAux_append,
    collapseAux_of_nonWS nm hnm,
    stateAfter_of_nonWS nm hnm true hne,
    collapseAux_append,
    show collapseAux false (" (\n" : String).data
      = (" ( " : String).data from rfl,
    show stateAfter false (" (\n" : String).data = true from rfl,
    hJ]

/-! ## Claim theorems -/

/-- C3: Constraint descriptors render exact clause text by kind: a column
whose declared constraints end with `PrimaryKey[abort]` has a rendered
definition ending with `PRIMARY KEY ON CONFLICT ABORT`; the test's
`NotNull<>, Unique<>` column includes both `NOT NULL ON CONFLICT ABORT` and
`UNIQUE ON CONFLICT ABORT`; `Unique[replace]` renders
`UNIQUE ON CONFLICT REPLACE`; `ForeignKey(Reference("test","id"), cascade,
restrict)` renders ``REFERENCES `test` (`id`) ON UPDATE CASCADE ON DELETE
RESTRICT``. -/
theorem c3_constraint_render :
    (∀ (n : String) (ft : FieldType) (b : Binding)
        (ks : List ConstraintDescriptor), ∃ pre : String,
      renderDefinition ⟨n, ft, b, ks ++ [.primaryKey .abort]⟩
        = pre ++ "PRIMARY KEY ON CONFLICT ABORT")
    ∧ (renderDefinition ⟨"name", ⟨.text, false⟩, .publicField "_name",
          [.notNull .abort, .unique .abort]⟩
        = "`name` TEXT " ++ "NOT NULL ON CONFLICT ABORT"
            ++ " " ++ "UNIQUE ON CONFLICT ABORT")
    ∧ (ConstraintDescriptor.unique .replace).render = "UNIQUE ON CONFLICT REPLACE"
    ∧ (ConstraintDescriptor.foreignKey ⟨"test", "id"⟩ .cascade .restrict).render
        = "REFERENCES `test` (`id`) ON UPDATE CASCADE ON DELETE RESTRICT" := by
  refine ⟨?_, by decide, by decide, by decide⟩
  intro n ft b ks
  have hE : ∃ l, effectiveConstraints ⟨n, ft, b, ks ++ [.primaryKey .abort]⟩
      = l ++ [ConstraintDescriptor.primaryKey .abort] := by
    unfold effectiveConstraints
    split
    · exact ⟨ks, rfl⟩
    · split
      · exact ⟨ks, rfl⟩
      · exact ⟨.notNull .abort :: ks, rfl⟩
  obtain ⟨l, hl⟩ := hE
  refine ⟨"`" ++ n ++ "` " ++ (sqlTypeOf ft.base).render
    ++ renderConstraintsSuffix l ++ " ", ?_⟩
  rw [renderDefinition, hl, renderConstraintsSuffix_append]
  refine String.ext ?_
  simp [renderConstraintsSuffix, ConstraintDescriptor.render, ConflictT.render,
    String.data_append]

/-- C5: `DeleteQuery::exec()` prepares the statement and then steps it once
to completion, returning success (`none`) or the explicit error result; when
`prepare()` fails the error is returned and the statement is never stepped. -/
theorem c5_exec_prepare_then_step :
    ∀ (st : Bool) (e : SqlErr) (s : Option SqlErr),
      execOnce st ⟨some e, s⟩
          = (some e, st, [.prepareCalled, .prepareFailed e])
      ∧ execOnce st ⟨none, s⟩
          = (s, true, [.prepareCalled, .prepareSucceeded, .stepCalled])
      ∧ ExecEvent.stepCalled ∉ (execOnce st ⟨some e, s⟩).2.2 := by
  intro st e s
  refine ⟨rfl, rfl, ?_⟩
  simp [execOnce]

/-- C6: `nColumns` equals the number of declared columns; `columnName(i)` is
the i-th declared column's name for every valid index, and signals NotFound
(`none`) for every out-of-range index. -/
theorem c6_columns :
    ∀ (T : TableDescriptor) (i : Nat),
      T.nColumns = T.columns.length
      ∧ (i < T.nColumns →
          ∃ c, T.columns[i]? = some c ∧ T.columnName i = some c.name)
      ∧ (T.nColumns ≤ i → T.columnName i = none) := by
  intro T i
  refine ⟨rfl, ?_, ?_⟩
  · intro h
    have hge : T.columns[i]? = some T.columns[i] :=
      List.getElem?_eq_getElem h
    exact ⟨T.columns[i], hge, by
      rw [TableDescriptor.columnName, columnNameAux_eq_getElem, hge]; rfl⟩
  · intro h
    rw [TableDescriptor.columnName, columnNameAux_eq_getElem,
      List.getElem?_eq_none h]
    rfl

/-- Witness for C6 at the test's `table_t` with indices 0 (valid) and 5
(out of range). -/
theorem c6_witness :
    (∃ c, tableT.columns[0]? = some c ∧ tableT.columnName 0 = some c.name)
    ∧ tableT.columnName 5 = none :=
  ⟨(c6_columns tableT 0).2.1 (by decide), (c6_columns tableT 5).2.2 (by decide)⟩

/-- C7: the SQL storage type is determined solely by the type of the bound
record field or accessor — the projection binding is irrelevant — with int
yielding INTEGER, float yielding REAL and std::string yielding TEXT in the
rendered column definition; the column is NOT NULL unless explicitly marked
optional. -/
theorem c7_storage_type :
    ∀ (n : String) (o : Bool) (b b' : Binding)
      (ks : List ConstraintDescriptor) (mt : MemberType),
      renderDefinition ⟨n, ⟨mt, o⟩, b, ks⟩ = renderDefinition ⟨n, ⟨mt, o⟩, b', ks⟩
      ∧ (sqlTypeOf .int).render = "INTEGER"
      ∧ (sqlTypeOf .float).render = "REAL"
      ∧ (sqlTypeOf .text).render = "TEXT"
      ∧ renderDefinition ⟨n, ⟨.int, false⟩, b, []⟩
          = "`" ++ n ++ "` INTEGER NOT NULL ON CONFLICT ABORT"
      ∧ renderDefinition ⟨n, ⟨.float, false⟩, b, []⟩
          = "`" ++ n ++ "` REAL NOT NULL ON CONFLICT ABORT"
      ∧ renderDefinition ⟨n, ⟨.text, false⟩, b, []⟩
          = "`" ++ n ++ "` TEXT NOT NULL ON CONFLICT ABORT"
      ∧ renderDefinition ⟨n, ⟨.int, true⟩, b, []⟩ = "`" ++ n ++ "` INTEGER" := by
  intro n o b b' ks mt
  refine ⟨rfl, rfl, rfl, rfl, ?_, ?_, ?_, ?_⟩ <;>
    refine String.ext ?_ <;>
    simp [renderDefinition, effectiveConstraints, ColumnDescriptor.isNullable,
      hasNotNull, renderConstraintsSuffix, sqlTypeOf, SqlType.render,
      ConstraintDescriptor.render, ConflictT.render, String.data_append]

/-- C9: `DeleteQuery::where` forwards its argument to the shared Query base's
`where` and yields the builder itself (fluent chaining); calling it twice
combines the two conditions by AND. -/
theorem c9_where_fluent :
    ∀ (q : DeleteQueryB) (p p₁ p₂ : Predicate) (t : String),
      q.whereCall p = ⟨q.tableName, addWhere q.whereClause p⟩
      ∧ ((mkDelete t).whereCall p₁).whereCall p₂ = ⟨t, some (p₁.conj p₂)⟩ := by
  intro q p p₁ p₂ t
  exact ⟨rfl, rfl⟩

/-- C10: on every `exec()` invocation — including repeated invocations with
the query already prepared — `prepare()` is called first, and the statement
is stepped only after a `prepare()` success within that same invocation's
trace. -/
theorem c10_exec_temporal :
    ∀ (st : Bool) (rs : List EngineResponse) (tr : List ExecEvent),
      tr ∈ execTraces st rs →
        tr.head? = some .prepareCalled ∧ stepsGuarded false tr = true := by
  intro st rs
  induction rs generalizing st with
  | nil => intro tr h; simp [execTraces] at h
  | cons r rest ih =>
      intro tr h
      rw [execTraces] at h
      rcases List.mem_cons.mp h with h | h
      · subst h
        cases hr : r.prepRes <;> simp [execOnce, hr, stepsGuarded]
      · exact ih _ _ h

/-- Witness for C10: one successful exec invocation after a failed one. -/
theorem c10_witness :
    ([ExecEvent.prepareCalled, ExecEvent.prepareSucceeded,
        ExecEvent.stepCalled] : List ExecEvent).head?
        = some ExecEvent.prepareCalled
    ∧ stepsGuarded false [ExecEvent.prepareCalled, ExecEvent.prepareSucceeded,
        ExecEvent.stepCalled] = true :=
  c10_exec_temporal false [⟨some (.prepareErr "no such table"), none⟩,
    ⟨none, none⟩] _ (by decide)

/-- Counterexample to C2 as stated: for the test's `name` column, declared
`NotNull<>, Unique<>` and not explicitly nullable, the literal reading of the
claim (automatic NOT NULL clause followed by all declared constraint clauses)
would render the NOT NULL clause twice, but the code renders it once — the
rendered definition is the test's expected text. -/
theorem c2_counterexample :
    renderDefinition ⟨"name", ⟨.text, false⟩, .publicField "_name",
        [.notNull .abort, .unique .abort]⟩
      = "`name` TEXT NOT NULL ON CONFLICT ABORT UNIQUE ON CONFLICT ABORT"
    ∧ renderDefinitionClaimed ⟨"name", ⟨.text, false⟩, .publicField "_name",
        [.notNull .abort, .unique .abort]⟩
      ≠ renderDefinition ⟨"name", ⟨.text, false⟩, .publicField "_name",
        [.notNull .abort, .unique .abort]⟩ := by
  exact ⟨by decide, by decide⟩

/-- C2 amended: the rendered column definition is the column name in
backticks, then the storage type, then `NOT NULL ON CONFLICT ABORT` whenever
the column is neither explicitly nullable nor declared with an explicit
NotNull constraint (an explicit NotNull constraint renders in its declared
position instead of the automatic clause), then the declared constraint
clauses in declaration order, all space-separated. -/
theorem c2_renderDefinition_amended :
    ∀ (c : ColumnDescriptor),
      renderDefinition c
        = "`" ++ c.name ++ "` " ++ (sqlTypeOf c.fieldType.base).render
          ++ (if c.isNullable = false ∧ hasNotNull c.constraints = false
              then " NOT NULL ON CONFLICT ABORT" else "")
          ++ renderConstraintsSuffix c.constraints := by
  intro c
  obtain ⟨n, ⟨mt, o⟩, b, ks⟩ := c
  refine String.ext ?_
  by_cases ho : o = true <;> by_cases hnn : hasNotNull ks = true <;>
    simp [renderDefinition, effectiveConstraints, ColumnDescriptor.isNullable,
      ho, hnn, renderConstraintsSuffix, ConstraintDescriptor.render,
      ConflictT.render, String.data_append]

/-- C4: a DELETE Query Builder's rendered statement begins with the literal
text `DELETE ` produced by its column clause, followed by `FROM <table>`,
followed by ` WHERE <predicate>` exactly when `.where(...)` was called on the
builder (a fresh builder carries no WHERE clause; every `where` call attaches
one). -/
theorem c4_delete_render :
    ∀ (t : String) (p : Predicate) (q : DeleteQueryB),
      (∃ rest, q.render = "DELETE " ++ rest)
      ∧ (mkDelete t).render = "DELETE " ++ "FROM " ++ t ++ ";"
      ∧ ((mkDelete t).whereCall p).render
          = "DELETE " ++ "FROM " ++ t ++ " WHERE " ++ p.render ++ ";"
      ∧ (mkDelete t).whereClause = none
      ∧ ((q.whereCall p).whereClause).isSome = true := by
  intro t p q
  refine ⟨⟨"FROM " ++ q.tableName
      ++ (match q.whereClause with
          | none => ""
          | some p' => " WHERE " ++ p'.render) ++ ";", ?_⟩, ?_, ?_, rfl, ?_⟩
  · refine String.ext ?_
    simp [DeleteQueryB.render, deleteColumnClauseText, String.data_append]
  · refine String.ext ?_
    simp [DeleteQueryB.render, deleteColumnClauseText, mkDelete,
      String.data_append]
  · refine String.ext ?_
    simp [DeleteQueryB.render, deleteColumnClauseText, mkDelete,
      DeleteQueryB.whereCall, addWhere, String.data_append]
  · cases hq : q.whereClause <;>
      simp [DeleteQueryB.whereCall, addWhere, hq]

/-- C8: for any two Table Descriptors that differ only by table name and a
uniform column-name substitution but have otherwise identical column
declarations — bindings reassigned arbitrarily, e.g. public-field versus
getter/setter style — `createTableQuery(false)` produces identical text after
applying that name substitution to the name slots of the token stream;
concretely, substituting `test_private ↦ test` in `tablepriv_t`'s token
stream reproduces `table_t`'s query, the regression of
`TableTest.CreateTableQuery`. -/
theorem c8_rename_invariance :
    ∀ (f : String → String) (b : ColumnDescriptor → Binding)
      (T : TableDescriptor),
      createTableQuery false (renameTable f b T)
          = renderToks ((createTableToks T).map (substTok f))
      ∧ createTableQuery false T = renderToks (createTableToks T)
      ∧ createTableQuery false tableT
          = renderToks ((createTableToks tablePrivT).map
              (substTok privToPublicName)) := by
  intro f b T
  refine ⟨?_, ?_, by decide⟩
  · refine String.ext ?_
    simp [createTableQuery, renameTable, createTableToks, List.map_append,
      renderToks_append, renderToks, tokText, substTok, joinDefs_rename,
      String.data_append]
  · refine String.ext ?_
    simp [createTableQuery, createTableToks, List.map_append,
      renderToks_append, renderToks, tokText, joinDefs_toks,
      String.data_append]

/-- Counterexample to C1 as stated: for the test's `table_t`, the
whitespace-normalized `createTableQuery(false)` is the claimed text followed
by one trailing space (the raw statement ends in a newline, which the test's
own expected string at `table_test.cpp` line 106 also carries as a trailing
space), so it is not exactly the claimed text. -/
theorem c1_counterexample :
    normalizeWS (createTableQuery false tableT)
      = "CREATE TABLE test ( `id` INTEGER NOT NULL ON CONFLICT ABORT, `name` TEXT NOT NULL ON CONFLICT ABORT ); "
    ∧ normalizeWS (createTableQuery false tableT)
      ≠ "CREATE TABLE test ( `id` INTEGER NOT NULL ON CONFLICT ABORT, `name` TEXT NOT NULL ON CONFLICT ABORT );" :=
  ⟨by decide, by decide⟩

/-- C1 amended: for every Table Descriptor with a nonempty whitespace-free
name, at least one column, and whitespace-free column and foreign-key
reference names, `createTableQuery(false)` after normalizing whitespace runs
to single spaces equals `CREATE TABLE <name> ( <col defs joined by comma and
space> ); ` — the claimed text followed by a single trailing space, since the
raw statement ends in a newline. -/
theorem c1_createTableQuery_normalized (T : TableDescriptor)
    (hname : wsFreeStr T.name = true) (hne : T.name ≠ "")
    (hcols : T.columns ≠ [])
    (hcn : ∀ c ∈ T.columns, wsFreeStr c.name = true
        ∧ ∀ k ∈ c.constraints, constraintWsFree k = true) :
    normalizeWS (createTableQuery false T)
      = "CREATE TABLE " ++ T.name ++ " ( "
        ++ String.intercalate ", " (T.columns.map renderDefinition)
        ++ " ); " := by
  have hdefs : ∀ c ∈ T.columns, CanonS (renderDefinition c) :=
    fun c h => canonS_renderDefinition c (hcn c h).1 (hcn c h).2
  have hne' : T.name.data ≠ [] := fun h => hne (String.ext h)
  have hJ := collapse_joinDefs T.columns hcols hdefs
  have hD : (createTableQuery false T).data
      = ("CREATE TABLE " : String).data ++ (T.name.data
        ++ ((" (\n" : String).data
          ++ ((joinDefs T.columns).data ++ ("\n);\n" : String).data))) := by
    simp [createTableQuery, String.data_append, List.append_assoc]
  refine String.ext ?_
  show collapseAux false (createTableQuery false T).data
    = ("CREATE TABLE " ++ T.name ++ " ( "
        ++ String.intercalate ", " (T.columns.map renderDefinition)
        ++ " ); ").data
  rw [hD, collapse_query T.name.data hname hne' _ _ hJ,
    joinDefsN_eq_intercalate]
  simp [String.data_append, List.append_assoc]

/-- Witness for C1 at the test's `table_t`. -/
theorem c1_witness :
    normalizeWS (createTableQuery false tableT)
      = "CREATE TABLE " ++ tableT.name ++ " ( "
        ++ String.intercalate ", " (tableT.columns.map renderDefinition)
        ++ " ); " :=
  c1_createTableQuery_normalized tableT (by decide) (by decide) (by decide)
    (by decide)

end Zxorm
